import Mathlib

/-
Verification of the amixer volume-control library (amixer.cpp / amixer.hpp).

The C++ source computes with exact small rationals promoted to double
(expressions such as volume/100.0, volumeNorm * dbRange, and
(dB - dbMin) / dbRange * 100.0) and rounds with lround, which rounds half
away from zero.  The embedding below performs the same arithmetic exactly:
every lround(x) call in the source has x = n / d for machine integers n
and d with d > 0, so it is embedded as lroundFrac n d, an integer-only
round-half-away-from-zero of the fraction n / d.  The lemma
lroundFrac_eq_roundHalfAwayQ connects this to the rational-valued
rounding function roundHalfAwayQ, which is the textbook
round-half-away-from-zero used to state specifications.

Hardware (ALSA) is the external collaborator: a channel slot holds an
optional native value (none models a failing read), and a write by a
controller stores the written value into the slot.
-/

/-- Integer clamp, mirroring std::clamp(v, lo, hi). -/
def iclamp (v lo hi : ℤ) : ℤ :=
  if v < lo then lo else if hi < v then hi else v

/-- Round n / d (with d > 0 in all uses) half away from zero, entirely in
integer arithmetic: for 0 ≤ n this is ⌊n/d + 1/2⌋ = (2n + d) / (2d) with
floor division, and the negative case is obtained by oddness of the
rounding.  This is the exact-rational counterpart of the lround calls in
amixer.cpp. -/
def lroundFrac (n d : ℤ) : ℤ :=
  if 0 ≤ n then (2 * n + d) / (2 * d)
  else -((2 * (-n) + d) / (2 * d))

/-- Round half away from zero on ℚ, exactly the C lround function on an
exactly-represented argument.  Used to phrase specification-level rounding
statements, against which the integer-level lroundFrac is compared. -/
def roundHalfAwayQ (q : ℚ) : ℤ :=
  if 0 ≤ q then ⌊q + 1 / 2⌋ else ⌈q - 1 / 2⌉

theorem iclamp_nonneg_le (x : ℤ) : 0 ≤ iclamp x 0 100 ∧ iclamp x 0 100 ≤ 100 := by
  unfold iclamp
  split_ifs <;> omega

theorem iclamp_of_mem (x lo hi : ℤ) (h1 : lo ≤ x) (h2 : x ≤ hi) :
    iclamp x lo hi = x := by
  unfold iclamp
  split_ifs <;> omega

theorem iclamp_idem (x : ℤ) : iclamp (iclamp x 0 100) 0 100 = iclamp x 0 100 := by
  unfold iclamp
  split_ifs <;> omega

/-- Rounding error bound: the rounded value is within half a unit,
expressed without division as 2·|n − d·round(n/d)| ≤ d. -/
theorem lroundFrac_err (n d : ℤ) (hd : 0 < d) :
    2 * |n - d * lroundFrac n d| ≤ d := by
  unfold lroundFrac
  split_ifs with h
  · set q := (2 * n + d) / (2 * d) with hq
    have h1 := Int.ediv_add_emod (2 * n + d) (2 * d)
    have h2 := Int.emod_nonneg (2 * n + d) (show (2 * d) ≠ 0 by omega)
    have h3 := Int.emod_lt_of_pos (2 * n + d) (show (0 : ℤ) < 2 * d by omega)
    rw [← hq] at h1
    have hlin : 2 * d * q = 2 * (d * q) := by ring
    rcases abs_cases (n - d * q) with ⟨h4, h5⟩ | ⟨h4, h5⟩ <;> omega
  · set q := (2 * (-n) + d) / (2 * d) with hq
    have h1 := Int.ediv_add_emod (2 * (-n) + d) (2 * d)
    have h2 := Int.emod_nonneg (2 * (-n) + d) (show (2 * d) ≠ 0 by omega)
    have h3 := Int.emod_lt_of_pos (2 * (-n) + d) (show (0 : ℤ) < 2 * d by omega)
    rw [← hq] at h1
    have hlin : 2 * d * q = 2 * (d * q) := by ring
    rw [mul_neg, sub_neg_eq_add]
    rcases abs_cases (n + d * q) with ⟨h4, h5⟩ | ⟨h4, h5⟩ <;> omega

theorem lroundFrac_zero (d : ℤ) (hd : 0 < d) : lroundFrac 0 d = 0 := by
  unfold lroundFrac
  rw [if_pos le_rfl]
  rw [show 2 * (0 : ℤ) + d = d by ring]
  exact Int.ediv_eq_zero_of_lt (by omega) (by omega)

theorem floor_add_half (m d : ℤ) (hd : 0 < d) :
    ⌊(m : ℚ) / (d : ℚ) + 1 / 2⌋ = (2 * m + d) / (2 * d) := by
  have hdq : ((d : ℚ)) ≠ 0 := by
    exact_mod_cast hd.ne'
  have htn : (((2 * d).toNat : ℤ)) = 2 * d := Int.toNat_of_nonneg (by omega)
  have key : (m : ℚ) / (d : ℚ) + 1 / 2 = ((2 * m + d : ℤ) : ℚ) / (((2 * d).toNat : ℕ) : ℚ) := by
    have : (((2 * d).toNat : ℕ) : ℚ) = ((2 * d : ℤ) : ℚ) := by
      exact_mod_cast htn
    rw [this]
    push_cast
    field_simp
    ring
  rw [key, Rat.floor_intCast_div_natCast]
  rw [htn]

/-- The integer-level rounding agrees with the rational
round-half-away-from-zero on the represented fraction. -/
theorem lroundFrac_eq_roundHalfAwayQ (n d : ℤ) (hd : 0 < d) :
    lroundFrac n d = roundHalfAwayQ ((n : ℚ) / (d : ℚ)) := by
  have hdq : (0 : ℚ) < (d : ℚ) := by exact_mod_cast hd
  unfold lroundFrac roundHalfAwayQ
  rcases le_or_lt 0 n with h | h
  · rw [if_pos h, if_pos (by positivity)]
    exact (floor_add_half n d hd).symm
  · have hq : ¬ (0 : ℚ) ≤ (n : ℚ) / (d : ℚ) := by
      rw [not_le]
      apply div_neg_of_neg_of_pos _ hdq
      exact_mod_cast h
    rw [if_neg (by omega), if_neg hq]
    have key : (n : ℚ) / (d : ℚ) - 1 / 2 = -(((-n : ℤ) : ℚ) / (d : ℚ) + 1 / 2) := by
      push_cast
      ring
    rw [key, Int.ceil_neg, floor_add_half (-n) d hd]

/-
Volume controllers (amixer.cpp lines 55-182).

VolumeController.create (line 170) only builds a VolumeControllerDb or a
VolumeControllerLinear from a non-null element handle, so the variants
below carry only the range triple cached by the corresponding C++
constructor (lines 79-87 and 122-130); the null-element guard of the
constructors is subsumed by the factory.  A controller write is modelled
by setVolumeNative, which returns the native value handed to
snd_mixer_selem_set_playback_dB / _volume, or none when the method
returns without writing.  A controller read getVolume takes the outcome
of the hardware read as an Option: none models a nonzero return code of
snd_mixer_selem_get_playback_dB / _volume.
-/

/-- The three controller shapes of amixer.cpp: VolumeControllerDb with its
cached (dbMin, dbMax, dbRange), VolumeControllerLinear with its cached
(volMin, volMax, volRange), and VolumeControllerDummy. -/
inductive VolumeController : Type
  | db (dbMin dbMax dbRange : ℤ)
  | linear (volMin volMax volRange : ℤ)
  | dummy
deriving DecidableEq

/-- VolumeControllerDb.setVolume (lines 89-95) and
VolumeControllerLinear.setVolume (lines 132-138): clamp(volume/100.0,0,1)
equals iclamp volume 0 100 divided by 100 exactly, so the written value
min + lround(volumeNorm * range) is min + lroundFrac (clamped * range) 100.
VolumeControllerDummy.setVolume (line 160) does nothing. -/
def VolumeController.setVolumeNative : VolumeController → ℤ → Option ℤ
  | VolumeController.db dbMin _ dbRange, volume =>
      if dbRange ≤ 0 then none
      else some (dbMin + lroundFrac (iclamp volume 0 100 * dbRange) 100)
  | VolumeController.linear volMin _ volRange, volume =>
      if volRange ≤ 0 then none
      else some (volMin + lroundFrac (iclamp volume 0 100 * volRange) 100)
  | VolumeController.dummy, _ => none

/-- VolumeControllerDb.getVolume (lines 97-106) and
VolumeControllerLinear.getVolume (lines 140-149): 0 on nonpositive cached
range or failing read, otherwise clamp(lround((native - min)/range*100),
0, 100), which is iclamp (lroundFrac ((native - min) * 100) range) 0 100.
VolumeControllerDummy.getVolume (line 161) returns 0. -/
def VolumeController.getVolume : VolumeController → Option ℤ → ℤ
  | VolumeController.db dbMin _ dbRange, readResult =>
      if dbRange ≤ 0 then 0
      else
        match readResult with
        | none => 0
        | some dB => iclamp (lroundFrac ((dB - dbMin) * 100) dbRange) 0 100
  | VolumeController.linear volMin _ volRange, readResult =>
      if volRange ≤ 0 then 0
      else
        match readResult with
        | none => 0
        | some vol => iclamp (lroundFrac ((vol - volMin) * 100) volRange) 0 100
  | VolumeController.dummy, _ => 0

/-- The cached range field of a controller (0 for the dummy, which caches
no range). -/
def VolumeController.cachedRange : VolumeController → ℤ
  | VolumeController.db _ _ dbRange => dbRange
  | VolumeController.linear _ _ volRange => volRange
  | VolumeController.dummy => 0

def VolumeController.isDb : VolumeController → Bool
  | VolumeController.db _ _ _ => true
  | _ => false

def VolumeController.isLinear : VolumeController → Bool
  | VolumeController.linear _ _ _ => true
  | _ => false

def VolumeController.isDummy : VolumeController → Bool
  | VolumeController.dummy => true
  | _ => false

/-- A controller is a scale controller when it is the Decibel or the
Linear variant. -/
def VolumeController.isScale : VolumeController → Bool
  | VolumeController.dummy => false
  | _ => true

/-- Outcome of a range query against the hardware: none when the ALSA
call returns nonzero, some (min, max) when it succeeds. -/
def rangeQueryPos : Option (ℤ × ℤ) → Bool
  | some (mn, mx) => decide (mn < mx)
  | none => false

/-- Linear fallback of the factory (lines 177-181): a successful linear
range query with max > min selects VolumeControllerLinear (whose
constructor re-runs the same query and caches (volMin, volMax,
volMax - volMin)), anything else selects VolumeControllerDummy. -/
def VolumeController.createLinearFallback : Option (ℤ × ℤ) → VolumeController
  | some (volMin, volMax) =>
      if volMin < volMax then VolumeController.linear volMin volMax (volMax - volMin)
      else VolumeController.dummy
  | none => VolumeController.dummy

/-- VolumeController.create (lines 170-182).  elemPresent models whether
the element pointer is non-null; dbQuery and linQuery are the outcomes of
snd_mixer_selem_get_playback_dB_range and
snd_mixer_selem_get_playback_volume_range for this element. -/
def VolumeController.create : Bool → Option (ℤ × ℤ) → Option (ℤ × ℤ) → VolumeController
  | false, _, _ => VolumeController.dummy
  | true, dbQuery, linQuery =>
      match dbQuery with
      | some (dBMin, dBMax) =>
          if dBMin < dBMax then VolumeController.db dBMin dBMax (dBMax - dBMin)
          else VolumeController.createLinearFallback linQuery
      | none => VolumeController.createLinearFallback linQuery

/-
The hardware state seen by one AMVolume (amixer.cpp lines 188-304).

ALSA holds one native value per (element, channel); each of the three
controllers of an AMVolume addresses its own channel of the shared
element.  A slot holds none when reading it fails.  Writing a value v to
a slot stores some v, so that a subsequent read returns exactly the
written value.
-/

/-- Per-channel hardware slots for one mixer element. -/
structure HWState : Type where
  left : Option ℤ
  right : Option ℤ
  mono : Option ℤ
deriving DecidableEq

/-- Effect of a controller invocation on one slot: none (no write
performed) leaves the slot alone, some v stores v. -/
def applyWrite (slot : Option ℤ) (write : Option ℤ) : Option ℤ :=
  match write with
  | none => slot
  | some v => some v

/-- AMVolume (lines 188-304): the name, the two channel-presence flags
and the three controllers, all fixed at construction (lines 201-208).
The card field of the C++ class is stored but never read, and is
omitted. -/
structure AMVolume : Type where
  name : String
  hasLeft : Bool
  hasRight : Bool
  leftVolumeController : VolumeController
  rightVolumeController : VolumeController
  monoVolumeController : VolumeController

def AMVolume.getName (cv : AMVolume) : String := cv.name

/-- AMVolume.getVolume (lines 249-257). -/
def AMVolume.getVolume (cv : AMVolume) (s : HWState) : ℤ :=
  max (max (cv.leftVolumeController.getVolume s.left)
        (cv.rightVolumeController.getVolume s.right))
    (cv.monoVolumeController.getVolume s.mono)

/-- AMVolume.getBalance (lines 294-303). -/
def AMVolume.getBalance (cv : AMVolume) (s : HWState) : ℤ :=
  if !cv.hasLeft || !cv.hasRight then 0
  else
    cv.rightVolumeController.getVolume s.right -
      cv.leftVolumeController.getVolume s.left

/-- AMVolume.setVolume (lines 214-239).  In the stereo branch,
lround(volume * balanceNorm) with balanceNorm = 1 - |balance|/100 is
lroundFrac (volume * (100 - |balance|)) 100 exactly. -/
def AMVolume.setVolume (cv : AMVolume) (volume₀ : ℤ) (s : HWState) : HWState :=
  let volume := iclamp volume₀ 0 100
  if cv.hasLeft && cv.hasRight then
    let balance := cv.getBalance s
    if balance < 0 then
      let s₁ := { s with
        left := applyWrite s.left (cv.leftVolumeController.setVolumeNative volume) }
      { s₁ with
        right := applyWrite s₁.right (cv.rightVolumeController.setVolumeNative
          (lroundFrac (volume * (100 - |balance|)) 100)) }
    else if balance > 0 then
      let s₁ := { s with
        left := applyWrite s.left (cv.leftVolumeController.setVolumeNative
          (lroundFrac (volume * (100 - |balance|)) 100)) }
      { s₁ with
        right := applyWrite s₁.right (cv.rightVolumeController.setVolumeNative volume) }
    else
      let s₁ := { s with
        left := applyWrite s.left (cv.leftVolumeController.setVolumeNative volume) }
      { s₁ with
        right := applyWrite s₁.right (cv.rightVolumeController.setVolumeNative volume) }
  else
    { s with mono := applyWrite s.mono (cv.monoVolumeController.setVolumeNative volume) }

/-- AMVolume.setBalance (lines 264-288).  The captured reference volume
is read from the pre-call hardware state; (100.0 - |balance|)/100.0 times
volume rounds as lroundFrac (volume * (100 - |balance|)) 100. -/
def AMVolume.setBalance (cv : AMVolume) (balance₀ : ℤ) (s : HWState) : HWState :=
  if !cv.hasLeft || !cv.hasRight then s
  else
    let balance := iclamp balance₀ (-100) 100
    let volume := cv.getVolume s
    if balance < 0 then
      let s₁ := { s with
        left := applyWrite s.left (cv.leftVolumeController.setVolumeNative volume) }
      { s₁ with
        right := applyWrite s₁.right (cv.rightVolumeController.setVolumeNative
          (lroundFrac (volume * (100 - |balance|)) 100)) }
    else if balance > 0 then
      let s₁ := { s with
        left := applyWrite s.left (cv.leftVolumeController.setVolumeNative
          (lroundFrac (volume * (100 - |balance|)) 100)) }
      { s₁ with
        right := applyWrite s₁.right (cv.rightVolumeController.setVolumeNative volume) }
    else
      let s₁ := { s with
        left := applyWrite s.left (cv.leftVolumeController.setVolumeNative volume) }
      { s₁ with
        right := applyWrite s₁.right (cv.rightVolumeController.setVolumeNative volume) }

/-
Registry (amixer.cpp lines 313-385).

Card and element enumeration, the open/attach/register/load steps and the
per-element capability queries are the external collaborator; they are
presented to the constructor as data.  ElemInfo carries what AMixer reads
from one mixer element: the activity and playback-volume flags tested in
the loop (lines 341-344), and the data the AMVolume constructor
(lines 201-208) extracts: the name, the two channel-presence flags and
the two range-query outcomes consumed by VolumeController.create (the
ALSA range queries are per element, so all three controllers of one
element see the same outcomes).  Elements handed to the loop body by
snd_mixer_first_elem / snd_mixer_elem_next are non-null.
-/

/-- What one mixer element presents to AMixer and AMVolume. -/
structure ElemInfo : Type where
  isActive : Bool
  hasPlaybackVolume : Bool
  name : String
  hasLeft : Bool
  hasRight : Bool
  dbQuery : Option (ℤ × ℤ)
  linQuery : Option (ℤ × ℤ)

/-- The AMVolume constructor (lines 201-208) applied to one element. -/
def mkAMVolume (e : ElemInfo) : AMVolume :=
  { name := e.name
    hasLeft := e.hasLeft
    hasRight := e.hasRight
    leftVolumeController := VolumeController.create true e.dbQuery e.linQuery
    rightVolumeController := VolumeController.create true e.dbQuery e.linQuery
    monoVolumeController := VolumeController.create true e.dbQuery e.linQuery }

/-- What one sound card presents to the AMixer constructor: the outcomes
of snd_mixer_open, snd_mixer_attach, snd_mixer_selem_register and
snd_mixer_load (lines 329-334), and its element list. -/
structure DeviceInfo : Type where
  openOk : Bool
  attachOk : Bool
  registerOk : Bool
  loadOk : Bool
  elems : List ElemInfo

/-- The inner element loop of the AMixer constructor (lines 339-348):
skip inactive elements and elements without playback volume, append one
AMVolume for every other element. -/
def elemLoop (acc : List AMVolume) : List ElemInfo → List AMVolume
  | [] => acc
  | e :: es =>
      if !e.isActive then elemLoop acc es
      else if !e.hasPlaybackVolume then elemLoop acc es
      else elemLoop (acc ++ [mkAMVolume e]) es

/-- The card loop of the AMixer constructor (lines 324-361): a card whose
open, attach, register or load step fails contributes nothing (its mixer
is closed and dropped); a fully loaded card contributes its element-loop
output. -/
def cardLoop (acc : List AMVolume) : List DeviceInfo → List AMVolume
  | [] => acc
  | d :: ds =>
      if d.openOk && d.attachOk && d.registerOk && d.loadOk then
        cardLoop (elemLoop acc d.elems) ds
      else cardLoop acc ds

/-- channelsList as built by the AMixer constructor (lines 319-362). -/
def AMixer.channelsList (devices : List DeviceInfo) : List AMVolume :=
  cardLoop [] devices

/-- Every controller read yields a percentage in [0, 100]. -/
theorem getVolume_bounds (c : VolumeController) (readResult : Option ℤ) :
    0 ≤ c.getVolume readResult ∧ c.getVolume readResult ≤ 100 := by
  cases c with
  | db dbMin dbMax dbRange =>
      simp only [VolumeController.getVolume]
      split_ifs
      · omega
      · cases readResult with
        | none => exact ⟨le_rfl, show (0 : ℤ) ≤ 100 by omega⟩
        | some dB => exact iclamp_nonneg_le _
  | linear volMin volMax volRange =>
      simp only [VolumeController.getVolume]
      split_ifs
      · omega
      · cases readResult with
        | none => exact ⟨le_rfl, show (0 : ℤ) ≤ 100 by omega⟩
        | some vol => exact iclamp_nonneg_le _
  | dummy =>
      simp only [VolumeController.getVolume]
      omega

/-- Writing percentage 0 to any controller leaves its slot reading back
as volume 0: a positive-range scale controller stores its minimum (which
reads back as 0), and the other controllers do not write but already read
as 0. -/
theorem getVolume_after_write_zero (c : VolumeController) (slot : Option ℤ) :
    c.getVolume (applyWrite slot (c.setVolumeNative 0)) = 0 := by
  cases c with
  | db dbMin dbMax dbRange =>
      simp only [VolumeController.setVolumeNative]
      split_ifs with hr
      · simp only [applyWrite, VolumeController.getVolume]
        rw [if_pos hr]
      · have hmin : iclamp 0 0 100 * dbRange = 0 := by
          rw [iclamp_of_mem 0 0 100 le_rfl (by omega)]
          ring
        rw [hmin, lroundFrac_zero 100 (by omega)]
        simp only [applyWrite, VolumeController.getVolume]
        rw [if_neg hr]
        rw [show dbMin + 0 - dbMin = 0 by ring]
        rw [zero_mul, lroundFrac_zero dbRange (by omega)]
        exact iclamp_of_mem 0 0 100 le_rfl (by omega)
  | linear volMin volMax volRange =>
      simp only [VolumeController.setVolumeNative]
      split_ifs with hr
      · simp only [applyWrite, VolumeController.getVolume]
        rw [if_pos hr]
      · have hmin : iclamp 0 0 100 * volRange = 0 := by
          rw [iclamp_of_mem 0 0 100 le_rfl (by omega)]
          ring
        rw [hmin, lroundFrac_zero 100 (by omega)]
        simp only [applyWrite, VolumeController.getVolume]
        rw [if_neg hr]
        rw [show volMin + 0 - volMin = 0 by ring]
        rw [zero_mul, lroundFrac_zero volRange (by omega)]
        exact iclamp_of_mem 0 0 100 le_rfl (by omega)
  | dummy =>
      rfl

/-- Specialization of the rounding bridge to denominator 100, the shape
of every percentage-to-fraction conversion in amixer.cpp. -/
theorem lroundFrac_hundred (n : ℤ) :
    lroundFrac n 100 = roundHalfAwayQ ((n : ℚ) / 100) := by
  rw [lroundFrac_eq_roundHalfAwayQ n 100 (by omega)]
  norm_num

/-- AMVolume.setVolume only consumes its argument through the initial
clamp (line 216). -/
theorem setVolume_congr (cv : AMVolume) (v w : ℤ) (s : HWState)
    (h : iclamp v 0 100 = iclamp w 0 100) :
    cv.setVolume v s = cv.setVolume w s := by
  simp only [AMVolume.setVolume]
  rw [h]

/-- AMVolume.setBalance only consumes its argument through the initial
clamp (line 269). -/
theorem setBalance_congr (cv : AMVolume) (b c : ℤ) (s : HWState)
    (h : iclamp b (-100) 100 = iclamp c (-100) 100) :
    cv.setBalance b s = cv.setBalance c s := by
  simp only [AMVolume.setBalance]
  rw [h]

/-- Claim C2: for every input volume, a scale controller's setVolume
clamps the input to [0,100], is a no-op when the cached range is not
strictly positive, and otherwise writes native = min + round(fraction *
range) to hardware with round-half-away-from-zero rounding; in
particular a Decibel controller with dbMin = -5100, dbMax = 0 writes
-2550 on setVolume(50). -/
theorem C2_setVolume_contract :
    (∀ (mn mx r v : ℤ),
        (VolumeController.db mn mx r).setVolumeNative v =
          (if r ≤ 0 then none
           else some (mn + roundHalfAwayQ ((iclamp v 0 100 : ℚ) / 100 * (r : ℚ))))
        ∧ (VolumeController.linear mn mx r).setVolumeNative v =
          (if r ≤ 0 then none
           else some (mn + roundHalfAwayQ ((iclamp v 0 100 : ℚ) / 100 * (r : ℚ)))))
    ∧ (∀ (c : VolumeController) (v : ℤ),
        c.setVolumeNative v = c.setVolumeNative (iclamp v 0 100))
    ∧ (VolumeController.db (-5100) 0 5100).setVolumeNative 50 = some (-2550) := by
  have harg : ∀ v r : ℤ, ((iclamp v 0 100 * r : ℤ) : ℚ) / 100
      = (iclamp v 0 100 : ℚ) / 100 * (r : ℚ) := by
    intro v r
    push_cast
    ring
  refine ⟨?_, ?_, ?_⟩
  · intro mn mx r v
    constructor
    · simp only [VolumeController.setVolumeNative]
      split_ifs with hr
      · rfl
      · rw [lroundFrac_hundred, harg]
    · simp only [VolumeController.setVolumeNative]
      split_ifs with hr
      · rfl
      · rw [lroundFrac_hundred, harg]
  · intro c v
    cases c with
    | db mn mx r => simp only [VolumeController.setVolumeNative, iclamp_idem]
    | linear mn mx r => simp only [VolumeController.setVolumeNative, iclamp_idem]
    | dummy => rfl
  · decide

/-- Claim C3: for every hardware state, a scale controller's getVolume
returns 0 when its cached range is not strictly positive or when the
hardware read fails, and otherwise returns round((native - min) / range
* 100) clamped to [0,100].  No error reaches the caller: getVolume is a
total function into ℤ (and setVolume into a state), never an error
value. -/
theorem C3_getVolume_contract :
    (∀ (mn mx r : ℤ) (readResult : Option ℤ),
        (VolumeController.db mn mx r).getVolume readResult =
          (if r ≤ 0 then 0
           else
             match readResult with
             | none => 0
             | some native =>
                 iclamp (roundHalfAwayQ (((native - mn : ℤ) : ℚ) / (r : ℚ) * 100)) 0 100)
        ∧ (VolumeController.linear mn mx r).getVolume readResult =
          (if r ≤ 0 then 0
           else
             match readResult with
             | none => 0
             | some native =>
                 iclamp (roundHalfAwayQ (((native - mn : ℤ) : ℚ) / (r : ℚ) * 100)) 0 100))
    ∧ (∀ readResult : Option ℤ, VolumeController.dummy.getVolume readResult = 0) := by
  have harg : ∀ (x r : ℤ), 0 < r →
      lroundFrac (x * 100) r = roundHalfAwayQ ((x : ℚ) / (r : ℚ) * 100) := by
    intro x r hrpos
    rw [lroundFrac_eq_roundHalfAwayQ (x * 100) r hrpos]
    congr 1
    push_cast
    ring
  constructor
  · intro mn mx r readResult
    constructor
    · simp only [VolumeController.getVolume]
      split_ifs with hr
      · rfl
      · cases readResult with
        | none => rfl
        | some native =>
            show iclamp (lroundFrac ((native - mn) * 100) r) 0 100
              = iclamp (roundHalfAwayQ (((native - mn : ℤ) : ℚ) / (r : ℚ) * 100)) 0 100
            rw [harg (native - mn) r (by omega)]
    · simp only [VolumeController.getVolume]
      split_ifs with hr
      · rfl
      · cases readResult with
        | none => rfl
        | some native =>
            show iclamp (lroundFrac ((native - mn) * 100) r) 0 100
              = iclamp (roundHalfAwayQ (((native - mn : ℤ) : ℚ) / (r : ℚ) * 100)) 0 100
            rw [harg (native - mn) r (by omega)]
  · intro readResult
    rfl

/-- Claim C5: for every ChannelVolume and every hardware state,
getVolume returns the maximum of the left, right and mono controller
reads, with no branching on the mono/stereo flags. -/
theorem C5_getVolume_is_max (cv : AMVolume) (s : HWState) :
    cv.getVolume s =
      max (cv.leftVolumeController.getVolume s.left)
        (max (cv.rightVolumeController.getVolume s.right)
          (cv.monoVolumeController.getVolume s.mono)) := by
  unfold AMVolume.getVolume
  rw [max_assoc]

/-- Claim C6: getBalance returns 0 on a non-stereo channel and the right
read minus the left read on a stereo channel, and the result always lies
in [-100, 100]. -/
theorem C6_getBalance_contract (cv : AMVolume) (s : HWState) :
    cv.getBalance s =
      (if cv.hasLeft && cv.hasRight then
        cv.rightVolumeController.getVolume s.right -
          cv.leftVolumeController.getVolume s.left
       else 0)
    ∧ -100 ≤ cv.getBalance s ∧ cv.getBalance s ≤ 100 := by
  have hl := getVolume_bounds cv.leftVolumeController s.left
  have hr := getVolume_bounds cv.rightVolumeController s.right
  constructor
  · unfold AMVolume.getBalance
    cases cv.hasLeft <;> cases cv.hasRight <;> simp
  · unfold AMVolume.getBalance
    split_ifs <;> omega

/-- Claim C7: for a (non-null) control element, the factory selects the
Decibel variant exactly when the decibel range query succeeds with a
strictly positive range, else the Linear variant exactly when the linear
range query succeeds with a strictly positive range, else the dummy. -/
theorem C7_create_selection (dbQuery linQuery : Option (ℤ × ℤ)) :
    ((VolumeController.create true dbQuery linQuery).isDb = rangeQueryPos dbQuery)
    ∧ ((VolumeController.create true dbQuery linQuery).isLinear
        = (!rangeQueryPos dbQuery && rangeQueryPos linQuery))
    ∧ ((VolumeController.create true dbQuery linQuery).isDummy
        = (!rangeQueryPos dbQuery && !rangeQueryPos linQuery)) := by
  rcases dbQuery with _ | ⟨dmn, dmx⟩ <;> rcases linQuery with _ | ⟨lmn, lmx⟩ <;>
    simp only [VolumeController.create, VolumeController.createLinearFallback,
      rangeQueryPos, VolumeController.isDb, VolumeController.isLinear,
      VolumeController.isDummy] <;>
    first
      | (split_ifs <;> simp_all)
      | simp_all

/-- Claim C8: at the ChannelVolume level, out-of-range volume and
balance arguments act exactly like their clamped values: setVolume(150)
equals setVolume(100), setVolume(-10) equals setVolume(0),
setBalance(150) equals setBalance(100) and setBalance(-150) equals
setBalance(-100), as functions on the hardware state. -/
theorem C8_clamp_equivalences (cv : AMVolume) (s : HWState) :
    cv.setVolume 150 s = cv.setVolume 100 s
    ∧ cv.setVolume (-10) s = cv.setVolume 0 s
    ∧ cv.setBalance 150 s = cv.setBalance 100 s
    ∧ cv.setBalance (-150) s = cv.setBalance (-100) s :=
  ⟨setVolume_congr cv 150 100 s (by decide),
   setVolume_congr cv (-10) 0 s (by decide),
   setBalance_congr cv 150 100 s (by decide),
   setBalance_congr cv (-150) (-100) s (by decide)⟩

/-- Arithmetic core of the set-then-get round trip: for range r ≥ 34 the
doubly rounded percentage stays within 1 of the original.  The two
rounding errors contribute at most 50/r and 1/2 of a percentage point,
so the integer distance exceeds 1 only when 3r ≤ 100. -/
theorem roundTrip_core (r p : ℤ) (hr : 34 ≤ r) (hp0 : 0 ≤ p) (hp1 : p ≤ 100) :
    |iclamp (lroundFrac (lroundFrac (p * r) 100 * 100) r) 0 100 - p| ≤ 1 := by
  have hrpos : (0 : ℤ) < r := by omega
  set n := lroundFrac (p * r) 100 with hn
  set v := lroundFrac (n * 100) r with hv
  have h1 := lroundFrac_err (p * r) 100 (by omega)
  rw [← hn] at h1
  have h2 := lroundFrac_err (n * 100) r hrpos
  rw [← hv] at h2
  have e1 : -100 ≤ 2 * (p * r - 100 * n) ∧ 2 * (p * r - 100 * n) ≤ 100 := by
    rcases abs_cases (p * r - 100 * n) with ⟨ha, _⟩ | ⟨ha, _⟩ <;> constructor <;> linarith
  have e2 : -r ≤ 2 * (n * 100 - r * v) ∧ 2 * (n * 100 - r * v) ≤ r := by
    rcases abs_cases (n * 100 - r * v) with ⟨ha, _⟩ | ⟨ha, _⟩ <;> constructor <;> linarith
  have hkey : 2 * r * (v - p) = -(2 * (p * r - 100 * n)) - 2 * (n * 100 - r * v) := by
    ring
  have hub : 2 * r * (v - p) ≤ 100 + r := by linarith [e1.1, e2.1]
  have hlb : -(100 + r) ≤ 2 * r * (v - p) := by linarith [e1.2, e2.2]
  have hd1 : v - p ≤ 1 := by
    by_contra hcon
    push_neg at hcon
    have h2le : 2 ≤ v - p := by omega
    have := mul_le_mul_of_nonneg_left h2le (show (0 : ℤ) ≤ 2 * r by omega)
    linarith
  have hd2 : -1 ≤ v - p := by
    by_contra hcon
    push_neg at hcon
    have h2le : v - p ≤ -2 := by omega
    have := mul_le_mul_of_nonneg_left h2le (show (0 : ℤ) ≤ 2 * r by omega)
    linarith
  rw [abs_le]
  unfold iclamp
  split_ifs <;> constructor <;> omega

/-- Claim C1, amended: for every percentage p in [0,100] and every
Decibel or Linear scale controller whose cached range is at least 34,
setVolume(p) followed by getVolume() (with the hardware read returning
exactly the value just written) yields a result within plus-or-minus 1
of p.  The bound 34 is forced: the counterexample shows a strictly
positive range of 33 already misses by 2. -/
theorem C1_roundTrip_within_one (c : VolumeController) (p : ℤ)
    (hp0 : 0 ≤ p) (hp1 : p ≤ 100)
    (hscale : c.isScale = true) (hr : 34 ≤ c.cachedRange) :
    ∃ native, c.setVolumeNative p = some native ∧
      |c.getVolume (some native) - p| ≤ 1 := by
  cases c with
  | db mn mx r =>
      have hr34 : 34 ≤ r := hr
      refine ⟨mn + lroundFrac (iclamp p 0 100 * r) 100, ?_, ?_⟩
      · simp only [VolumeController.setVolumeNative]
        rw [if_neg (by omega)]
      · rw [iclamp_of_mem p 0 100 hp0 hp1]
        simp only [VolumeController.getVolume]
        rw [if_neg (by omega)]
        rw [show mn + lroundFrac (p * r) 100 - mn = lroundFrac (p * r) 100 from by ring]
        exact roundTrip_core r p hr34 hp0 hp1
  | linear mn mx r =>
      have hr34 : 34 ≤ r := hr
      refine ⟨mn + lroundFrac (iclamp p 0 100 * r) 100, ?_, ?_⟩
      · simp only [VolumeController.setVolumeNative]
        rw [if_neg (by omega)]
      · rw [iclamp_of_mem p 0 100 hp0 hp1]
        simp only [VolumeController.getVolume]
        rw [if_neg (by omega)]
        rw [show mn + lroundFrac (p * r) 100 - mn = lroundFrac (p * r) 100 from by ring]
        exact roundTrip_core r p hr34 hp0 hp1
  | dummy => simp [VolumeController.isScale] at hscale

theorem C1_roundTrip_within_one_witness :
    (0 : ℤ) ≤ 37 ∧ (37 : ℤ) ≤ 100
    ∧ (VolumeController.db 0 100 100).isScale = true
    ∧ 34 ≤ (VolumeController.db 0 100 100).cachedRange
    ∧ ∃ native, (VolumeController.db 0 100 100).setVolumeNative 37 = some native ∧
        |(VolumeController.db 0 100 100).getVolume (some native) - 37| ≤ 1 :=
  ⟨by decide, by decide, by decide, by decide,
    C1_roundTrip_within_one (VolumeController.db 0 100 100) 37 (by decide) (by decide)
      (by decide) (by decide)⟩

/-- Claim C1 as frozen is false: the Decibel controller with dbMin = 0,
dbMax = 33 has a strictly positive cached range 33, yet setVolume(50)
writes native value 17 and reading 17 back yields 52, which differs from
50 by 2. -/
theorem C1_roundTrip_counterexample :
    (VolumeController.db 0 33 33).isScale = true
    ∧ 0 < (VolumeController.db 0 33 33).cachedRange
    ∧ (VolumeController.db 0 33 33).setVolumeNative 50 = some 17
    ∧ (VolumeController.db 0 33 33).getVolume (some 17) = 52
    ∧ ¬|(VolumeController.db 0 33 33).getVolume (some 17) - 50| ≤ 1 := by
  decide

/-- Claim C4: on a stereo channel (and only there), setBalance clamps
the balance to [-100,100], first captures the current overall volume
from the pre-call hardware state via getVolume(), sets the louder side
to that captured volume and the other side to round(volume *
(100 - |balance|) / 100); on a non-stereo channel it is a no-op; and
after setBalance(-100) a direct read of the right scale controller
yields 0. -/
theorem C4_setBalance_contract (cv : AMVolume) (b : ℤ) (s : HWState) :
    cv.setBalance b s =
      (if cv.hasLeft && cv.hasRight then
        let balance := iclamp b (-100) 100
        let volume := cv.getVolume s
        if balance < 0 then
          let s₁ := { s with
            left := applyWrite s.left (cv.leftVolumeController.setVolumeNative volume) }
          { s₁ with
            right := applyWrite s₁.right (cv.rightVolumeController.setVolumeNative
              (roundHalfAwayQ (((volume * (100 - |balance|) : ℤ) : ℚ) / 100))) }
        else if balance > 0 then
          let s₁ := { s with
            left := applyWrite s.left (cv.leftVolumeController.setVolumeNative
              (roundHalfAwayQ (((volume * (100 - |balance|) : ℤ) : ℚ) / 100))) }
          { s₁ with
            right := applyWrite s₁.right (cv.rightVolumeController.setVolumeNative volume) }
        else
          let s₁ := { s with
            left := applyWrite s.left (cv.leftVolumeController.setVolumeNative volume) }
          { s₁ with
            right := applyWrite s₁.right (cv.rightVolumeController.setVolumeNative volume) }
       else s)
    ∧ cv.rightVolumeController.getVolume ((cv.setBalance (-100) s).right) =
      (if cv.hasLeft && cv.hasRight then 0
       else cv.rightVolumeController.getVolume s.right) := by
  constructor
  · cases hL : cv.hasLeft <;> cases hR : cv.hasRight <;>
      simp [AMVolume.setBalance, hL, hR, lroundFrac_hundred]
  · cases hL : cv.hasLeft <;> cases hR : cv.hasRight
    · simp [AMVolume.setBalance, hL, hR]
    · simp [AMVolume.setBalance, hL, hR]
    · simp [AMVolume.setBalance, hL, hR]
    · simp only [AMVolume.setBalance, hL, hR, Bool.not_true, Bool.or_false,
        Bool.false_or, Bool.and_self]
      rw [if_neg (show ¬(false = true) from by simp)]
      rw [if_pos trivial]
      rw [show iclamp (-100) (-100) 100 = (-100 : ℤ) from by decide]
      rw [if_pos (show (-100 : ℤ) < 0 from by decide)]
      rw [show (100 : ℤ) - |(-100 : ℤ)| = 0 from by decide]
      rw [mul_zero, lroundFrac_zero 100 (by omega)]
      exact getVolume_after_write_zero cv.rightVolumeController _

/-- Claim C10: each ChannelVolume mutation writes only its designated
channel slots: mono setVolume leaves the left and right slots unchanged,
and stereo setVolume and setBalance leave the mono slot unchanged.  The
read operations getVolume, getBalance and getName are state-to-value
functions of the embedding and touch no slot by construction. -/
theorem C10_frame_conditions (cv : AMVolume) (s : HWState) (v b : ℤ) :
    ((cv.hasLeft && cv.hasRight) = false →
        (cv.setVolume v s).left = s.left ∧ (cv.setVolume v s).right = s.right)
    ∧ ((cv.hasLeft && cv.hasRight) = true →
        (cv.setVolume v s).mono = s.mono ∧ (cv.setBalance b s).mono = s.mono) := by
  constructor
  · intro h
    simp only [AMVolume.setVolume, h, if_false]
    exact ⟨rfl, rfl⟩
  · intro h
    have hL : cv.hasLeft = true := by
      simp only [Bool.and_eq_true] at h
      exact h.1
    have hR : cv.hasRight = true := by
      simp only [Bool.and_eq_true] at h
      exact h.2
    constructor
    · simp only [AMVolume.setVolume, h, if_true]
      split_ifs <;> rfl
    · simp only [AMVolume.setBalance, hL, hR, Bool.not_true, Bool.or_false,
        Bool.false_or, if_false]
      split_ifs <;> rfl

theorem C10_frame_conditions_witness :
    (((⟨"Mono", false, false, VolumeController.dummy, VolumeController.dummy,
          VolumeController.db 0 6000 6000⟩ : AMVolume).setVolume 40
            ⟨some 1, some 2, some 3⟩).left = some 1
      ∧ ((⟨"Mono", false, false, VolumeController.dummy, VolumeController.dummy,
          VolumeController.db 0 6000 6000⟩ : AMVolume).setVolume 40
            ⟨some 1, some 2, some 3⟩).right = some 2)
    ∧ (((⟨"Speaker", true, true, VolumeController.db 0 100 100,
          VolumeController.db 0 100 100, VolumeController.dummy⟩ : AMVolume).setVolume 40
            ⟨some 1, some 2, some 3⟩).mono = some 3
      ∧ ((⟨"Speaker", true, true, VolumeController.db 0 100 100,
          VolumeController.db 0 100 100, VolumeController.dummy⟩ : AMVolume).setBalance 25
            ⟨some 1, some 2, some 3⟩).mono = some 3) :=
  ⟨(C10_frame_conditions
      ⟨"Mono", false, false, VolumeController.dummy, VolumeController.dummy,
        VolumeController.db 0 6000 6000⟩ ⟨some 1, some 2, some 3⟩ 40 25).1 (by decide),
   (C10_frame_conditions
      ⟨"Speaker", true, true, VolumeController.db 0 100 100,
        VolumeController.db 0 100 100, VolumeController.dummy⟩
      ⟨some 1, some 2, some 3⟩ 40 25).2 (by decide)⟩

/-- The element loop appends exactly one AMVolume per active
playback-volume element, in enumeration order. -/
theorem elemLoop_eq (acc : List AMVolume) (es : List ElemInfo) :
    elemLoop acc es =
      acc ++ (es.filter (fun e => e.isActive && e.hasPlaybackVolume)).map mkAMVolume := by
  induction es generalizing acc with
  | nil => simp [elemLoop]
  | cons e es ih =>
      cases ha : e.isActive <;> cases hp : e.hasPlaybackVolume <;>
        simp [elemLoop, ha, hp, ih, List.filter_cons]

/-- The card loop appends each fully loaded card's element-loop output
and skips failed cards. -/
theorem cardLoop_eq (acc : List AMVolume) (ds : List DeviceInfo) :
    cardLoop acc ds =
      acc ++ ds.flatMap (fun d =>
        if d.openOk && d.attachOk && d.registerOk && d.loadOk then
          (d.elems.filter (fun e => e.isActive && e.hasPlaybackVolume)).map mkAMVolume
        else []) := by
  induction ds generalizing acc with
  | nil => simp [cardLoop]
  | cons d ds ih =>
      simp only [cardLoop]
      split_ifs with h
      · rw [elemLoop_eq, ih, List.flatMap_cons, if_pos h, List.append_assoc]
      · rw [ih, List.flatMap_cons, if_neg h, List.nil_append]

/-- Claim C9: registry construction is total on every presented
device/element sequence (it is a function into a plain list, with no
failure outcome); a device whose open, attach, register or load step
fails contributes zero channels; inactive elements and elements without
playback volume are skipped; one ChannelVolume is appended per remaining
element in enumeration order; and the empty channel list is a valid
outcome. -/
theorem C9_registry_failSoft :
    (∀ devices : List DeviceInfo,
        AMixer.channelsList devices =
          devices.flatMap (fun d =>
            if d.openOk && d.attachOk && d.registerOk && d.loadOk then
              (d.elems.filter (fun e => e.isActive && e.hasPlaybackVolume)).map mkAMVolume
            else []))
    ∧ (∀ (d : DeviceInfo) (devices : List DeviceInfo),
        (d.openOk && d.attachOk && d.registerOk && d.loadOk) = false →
          AMixer.channelsList (d :: devices) = AMixer.channelsList devices)
    ∧ AMixer.channelsList [] = [] := by
  refine ⟨?_, ?_, rfl⟩
  · intro devices
    unfold AMixer.channelsList
    rw [cardLoop_eq]
    simp
  · intro d devices h
    unfold AMixer.channelsList
    simp only [cardLoop, h]
    rw [if_neg (by simp)]

theorem C9_registry_failSoft_witness :
    AMixer.channelsList
        [⟨true, false, true, true,
          [⟨true, true, "PCM", true, true, some (0, 100), none⟩]⟩] =
      AMixer.channelsList [] :=
  C9_registry_failSoft.2.1
    ⟨true, false, true, true, [⟨true, true, "PCM", true, true, some (0, 100), none⟩]⟩
    [] (by decide)
